import Mathlib

/-!
Verification of the VaultDAO delegation / effective-voter subsystem and of the
frontend vault-contract hook.

The delegation subsystem (the Soroban contract code in
`contracts/vault/src/{types,storage,lib,events,errors}.rs`) is described in the
repository only by its design document; the contract sources themselves are not
part of the repository snapshot.  The definitions in the `VaultDAO` namespace
are therefore modelled from the specification, faithful to its words; each
carries a doc comment saying so.  The frontend definitions (`Frontend`
namespace) are translated directly from the TypeScript sources
(`useVaultContract` hook and `DashboardLayout.tsx`).
-/

namespace VaultDAO

/-- Addresses are modelled as natural numbers with decidable equality. -/
abbrev Addr := Nat

/-- Modelled from the spec: the missing `types.rs` declares a delegation status
of `Active`, `Revoked` or `Expired`. -/
inductive DelegationStatus where
  | Active
  | Revoked
  | Expired
deriving DecidableEq, Repr

/-- Modelled from the spec: the missing `types.rs` `Delegation` record —
delegator, delegate, `expiry_ledger` (0 encodes permanent), status and
creation ledger. -/
structure Delegation where
  delegator : Addr
  delegate : Addr
  expiry_ledger : Nat
  status : DelegationStatus
  created_at : Nat
deriving DecidableEq, Repr

/-- Modelled from the spec: the history event kinds of
`DelegationHistoryEntry`. -/
inductive HistoryEvent where
  | Created
  | Revoked
  | Expired
  | VoteDelegated
deriving DecidableEq, Repr

/-- Modelled from the spec: the missing `types.rs` `DelegationHistoryEntry` —
event kind, the delegate involved, and the ledger height of the event. -/
structure DelegationHistoryEntry where
  event : HistoryEvent
  delegate : Addr
  at_ledger : Nat
deriving DecidableEq, Repr

/-- Modelled from the spec: the persistent Store as seen by the subsystem — an
address-keyed mapping of delegations, the append-only history (kept here as a
flat list of (delegator, entry) pairs in append order), and the vault signer
set consulted through the external `is_signer` collaborator. -/
structure Store where
  signers : List Addr
  delegs : List (Addr × Delegation)
  hist : List (Addr × DelegationHistoryEntry)
deriving DecidableEq, Repr

/-- Association-list lookup for the delegation mapping (first match wins). -/
def lookupDeleg : List (Addr × Delegation) → Addr → Option Delegation
  | [], _ => none
  | (k, v) :: rest, a => if k = a then some v else lookupDeleg rest a

/-- Association-list write: update the record under an existing key in place,
or append a fresh key at the end. -/
def setDeleg : List (Addr × Delegation) → Addr → Delegation → List (Addr × Delegation)
  | [], a, d => [(a, d)]
  | (k, v) :: rest, a, d =>
      if k = a then (a, d) :: rest else (k, v) :: setDeleg rest a d

/-- The maximum delegation chain depth fixed by the design: 3 hops. -/
def MAX_CHAIN_DEPTH : Nat := 3

/-- Modelled from the spec: `is_expired(d, now)` — a delegation with a nonzero
`expiry_ledger` at or below the current ledger is stale. -/
def isExpiredAt (d : Delegation) (now : Nat) : Bool :=
  decide (d.expiry_ledger ≠ 0 ∧ d.expiry_ledger ≤ now)

/-- Modelled from the spec: `is_active(d, now)` — status `Active` and not
stale. -/
def isActiveAt (d : Delegation) (now : Nat) : Bool :=
  decide (d.status = DelegationStatus.Active) && !(isExpiredAt d now)

/-- The history entry appended when a stale delegation is lazily expired. -/
def expiredEntry (d : Delegation) (now : Nat) : DelegationHistoryEntry :=
  { event := HistoryEvent.Expired, delegate := d.delegate, at_ledger := now }

/-- Modelled from the spec: `get_delegation(delegator)` — the read-and-reconcile
operation.  Looks up the record; if it is `Active` but its expiry ledger has
passed, flips the stored status to `Expired`, appends an `Expired` history
entry, and reports the delegation as absent; records that are absent,
`Revoked` or already `Expired` are reported absent without a write. -/
def get_delegation (s : Store) (now : Nat) (a : Addr) : Option Delegation × Store :=
  match lookupDeleg s.delegs a with
  | none => (none, s)
  | some d =>
      if d.status = DelegationStatus.Active then
        if d.expiry_ledger ≠ 0 ∧ d.expiry_ledger ≤ now then
          (none,
            { s with
              delegs := setDeleg s.delegs a { d with status := DelegationStatus.Expired },
              hist := s.hist ++ [(a, expiredEntry d now)] })
        else (some d, s)
      else (none, s)

/-- Modelled from the spec: one bounded iteration scheme of the resolver walk
(§4.3).  `fuel` only guarantees termination; the hop counter reaches the
`MAX_CHAIN_DEPTH` cutoff before the fuel (`MAX_CHAIN_DEPTH + 1`) runs out. -/
def resolveWalk (now : Nat) :
    Nat → Store → Addr → List Addr → Nat → Addr × Store
  | 0, s, current, _, _ => (current, s)
  | Nat.succ fuel, s, current, visited, hops =>
      match get_delegation s now current with
      | (none, s1) => (current, s1)
      | (some d, s1) =>
          let next := d.delegate
          if next ∈ visited then (current, s1)
          else if MAX_CHAIN_DEPTH < hops + 1 then (current, s1)
          else resolveWalk now fuel s1 next (next :: visited) (hops + 1)

/-- Modelled from the spec: `get_effective_voter(voter)` — iterative walk from
the voter along effectively-active delegation edges, with lazy expiry
performed by each read, returning the terminal address together with the
(possibly reconciled) store. -/
def get_effective_voter (s : Store) (now : Nat) (voter : Addr) : Addr × Store :=
  resolveWalk now (MAX_CHAIN_DEPTH + 1) s voter [voter] 0

/-- Modelled from the spec: the error taxonomy of the missing `errors.rs`. -/
inductive DelegationError where
  | Unauthorized
  | AlreadyExists
  | NotFound
  | Expired
  | CircularDelegation
  | DelegationChainTooLong
deriving DecidableEq, Repr

/-- Modelled from the spec: the write-time cycle probe — walk from `start`
along effectively-active edges for at most `fuel` hops and report whether
`target` is reached. -/
def reachesWithin (s : Store) (now : Nat) : Nat → Addr → Addr → Bool
  | 0, _, _ => false
  | Nat.succ fuel, a, target =>
      match lookupDeleg s.delegs a with
      | none => false
      | some d =>
          if isActiveAt d now then
            decide (d.delegate = target) || reachesWithin s now fuel d.delegate target
          else false

/-- Modelled from the spec: the length (in hops, capped by `fuel`) of the
effectively-active chain starting at an address. -/
def chainLen (s : Store) (now : Nat) : Nat → Addr → Nat
  | 0, _ => 0
  | Nat.succ fuel, a =>
      match lookupDeleg s.delegs a with
      | none => 0
      | some d =>
          if isActiveAt d now then chainLen s now fuel d.delegate + 1 else 0

/-- The record written by a successful `delegate_voting_power`. -/
def newDelegation (delegator del expiry now : Nat) : Delegation :=
  { delegator := delegator, delegate := del, expiry_ledger := expiry,
    status := DelegationStatus.Active, created_at := now }

/-- The history entry appended by a successful `delegate_voting_power`. -/
def createdEntry (del now : Nat) : DelegationHistoryEntry :=
  { event := HistoryEvent.Created, delegate := del, at_ledger := now }

/-- Modelled from the spec: `delegate_voting_power(delegator, delegate,
expiry_ledger)` with its preconditions checked in order, first failure wins:
signer check (`Unauthorized`), self-delegation (`Unauthorized`), existing
effectively-active delegation (`AlreadyExists`), cycle probe from the proposed
delegate back to the delegator over existing active edges
(`CircularDelegation`), and the 3-hop bound on the resulting chain starting at
the delegator (`DelegationChainTooLong`).  On success the new `Active` record
is written and a `Created` history entry appended; an error commits nothing
(all-or-nothing invocation semantics). -/
def delegate_voting_power (s : Store) (now : Nat)
    (delegator del : Addr) (expiry : Nat) : Except DelegationError Store :=
  if delegator ∉ s.signers then Except.error DelegationError.Unauthorized
  else if delegator = del then Except.error DelegationError.Unauthorized
  else
    match lookupDeleg s.delegs delegator with
    | some old =>
        if isActiveAt old now then Except.error DelegationError.AlreadyExists
        else delegateCommit s now delegator del expiry
    | none => delegateCommit s now delegator del expiry
where
  /-- The cycle/depth checks and the committing write. -/
  delegateCommit (s : Store) (now : Nat) (delegator del : Addr) (expiry : Nat) :
      Except DelegationError Store :=
    if reachesWithin s now MAX_CHAIN_DEPTH del delegator then
      Except.error DelegationError.CircularDelegation
    else if MAX_CHAIN_DEPTH < chainLen s now MAX_CHAIN_DEPTH del + 1 then
      Except.error DelegationError.DelegationChainTooLong
    else
      Except.ok
        { s with
          delegs := setDeleg s.delegs delegator (newDelegation delegator del expiry now),
          hist := s.hist ++ [(delegator, createdEntry del now)] }

/-- Modelled from the spec: `revoke_delegation(delegator)` — requires an
effectively-active delegation (`NotFound` otherwise); sets the status to
`Revoked` and appends a `Revoked` history entry. -/
def revoke_delegation (s : Store) (now : Nat) (delegator : Addr) :
    Except DelegationError Store :=
  match lookupDeleg s.delegs delegator with
  | none => Except.error DelegationError.NotFound
  | some d =>
      if isActiveAt d now then
        Except.ok
          { s with
            delegs := setDeleg s.delegs delegator { d with status := DelegationStatus.Revoked },
            hist := s.hist ++
              [(delegator,
                { event := HistoryEvent.Revoked, delegate := d.delegate, at_ledger := now })] }
      else Except.error DelegationError.NotFound

/-- A store's delegation mapping is well-formed when each delegator keys at
most one record. -/
def keysNodup (s : Store) : Prop :=
  (s.delegs.map Prod.fst).Nodup

end VaultDAO

namespace Frontend

/-- Result of decoding a base64 topic through `xdr.ScVal.fromXDR` followed by
`scValToNative`: the decode can throw (`fail`), produce a string, or produce a
non-string native value.  The concrete decoder is external library code, so it
is kept abstract. -/
inductive ScDecode where
  | fail
  | str (s : String)
  | other
deriving DecidableEq, Repr

/-- The known contract event names (`EVENT_SYMBOLS` in the hook source). -/
def EVENT_SYMBOLS : List String :=
  ["proposal_created", "proposal_approved", "proposal_ready", "proposal_executed",
   "proposal_rejected", "signer_added", "signer_removed", "config_updated",
   "initialized", "role_assigned"]

/-- `getEventTypeFromTopic`, translated from the hook source, parameterised by
the external decoder: inside the `try`, a decoded string contained in
`EVENT_SYMBOLS` is returned as the event type; any other decode result yields
the string `unknown`, and a thrown decode error is caught and also yields
`unknown`. -/
def getEventTypeFromTopic (decode : String → ScDecode) (topic0Base64 : String) : String :=
  match decode topic0Base64 with
  | ScDecode.fail => "unknown"
  | ScDecode.other => "unknown"
  | ScDecode.str s => if s ∈ EVENT_SYMBOLS then s else "unknown"

/-- Observable effects performed by the `useVaultContract` hook functions, in
program order: the `setLoading` state updates and the external RPC / wallet
interactions (`server.getAccount`, `server.simulateTransaction`,
`signTransaction`, `server.sendTransaction`). -/
inductive Eff where
  | setLoading (b : Bool)
  | getAccount (addr : String)
  | simulateTx
  | signTx
  | sendTx
deriving DecidableEq, Repr

/-- Outcomes of the external calls awaited inside the hook's `try` block; each
function of the record stands for the response of the corresponding external
service.  `parseMsg` is `parseError` from `utils/errorParser`, applied to
errors caught inside the `try` block. -/
structure RpcEnv where
  account : String → Except String Unit
  simError : Option String
  sendStatus : String
  sendHash : String
  parseMsg : String → String

/-- The shared body of `proposeTransfer` and `rejectProposal` after the wallet
guard: `setLoading(true)`, account lookup, simulation, signing, submission,
with every caught error routed through `parseError` and `setLoading(false)` in
the `finally` block. -/
def txPipeline (env : RpcEnv) (addr : String) : List Eff × Except String String :=
  match env.account addr with
  | Except.error e =>
      ([Eff.setLoading true, Eff.getAccount addr, Eff.setLoading false],
        Except.error (env.parseMsg e))
  | Except.ok _ =>
      match env.simError with
      | some err =>
          ([Eff.setLoading true, Eff.getAccount addr, Eff.simulateTx, Eff.setLoading false],
            Except.error (env.parseMsg ("Simulation Failed: " ++ err)))
      | none =>
          if env.sendStatus = "PENDING" then
            ([Eff.setLoading true, Eff.getAccount addr, Eff.simulateTx, Eff.signTx,
              Eff.sendTx, Eff.setLoading false],
              Except.ok env.sendHash)
          else
            ([Eff.setLoading true, Eff.getAccount addr, Eff.simulateTx, Eff.signTx,
              Eff.sendTx, Eff.setLoading false],
              Except.error (env.parseMsg "Transaction submission failed"))

/-- `proposeTransfer` from the hook source: the wallet guard throws
`Wallet not connected` before any effect when the wallet is disconnected or no
address is set; otherwise the transaction pipeline runs.  The returned list is
the trace of effects performed, in order. -/
def proposeTransfer (env : RpcEnv) (isConnected : Bool) (address : Option String)
    (_recipient _token _amount _memo : String) : List Eff × Except String String :=
  match isConnected, address with
  | true, some addr => txPipeline env addr
  | _, _ => ([], Except.error "Wallet not connected")

/-- `rejectProposal` from the hook source: same wallet guard, then the same
pipeline invoking `reject_proposal` on the contract. -/
def rejectProposal (env : RpcEnv) (isConnected : Bool) (address : Option String)
    (_proposalId : Nat) : List Eff × Except String String :=
  match isConnected, address with
  | true, some addr => txPipeline env addr
  | _, _ => ([], Except.error "Wallet not connected")

/-- The fields of a proposal that `canRejectProposal` consults. -/
structure Proposal where
  proposer : String
deriving DecidableEq, Repr

/-- The mock user role constant of the `Proposals` component. -/
def userRole : String := "Admin"

/-- `canRejectProposal` from `DashboardLayout.tsx`, parameterised by the
component's wallet state and role: without a connected wallet and address it
returns `true` (the demo-mode branch); otherwise the proposer must match the
connected address or the role must be `Admin`. -/
def canRejectProposal (isConnected : Bool) (address : Option String) (role : String)
    (proposal : Proposal) : Bool :=
  match isConnected, address with
  | true, some addr => decide (proposal.proposer = addr) || decide (role = "Admin")
  | _, _ => true

end Frontend

namespace VaultDAO

theorem lookupDeleg_setDeleg_self (l : List (Addr × Delegation)) (a : Addr) (d : Delegation) :
    lookupDeleg (setDeleg l a d) a = some d := by
  induction l with
  | nil => simp [setDeleg, lookupDeleg]
  | cons kv rest ih =>
      obtain ⟨k, v⟩ := kv
      by_cases hk : k = a
      · simp [setDeleg, hk, lookupDeleg]
      · simp [setDeleg, hk, lookupDeleg, ih]

theorem lookupDeleg_setDeleg_ne (l : List (Addr × Delegation)) (a x : Addr) (d : Delegation)
    (hx : x ≠ a) : lookupDeleg (setDeleg l a d) x = lookupDeleg l x := by
  induction l with
  | nil => simp [setDeleg, lookupDeleg, Ne.symm hx]
  | cons kv rest ih =>
      obtain ⟨k, v⟩ := kv
      by_cases hk : k = a
      · subst hk
        simp [setDeleg, lookupDeleg, Ne.symm hx]
      · by_cases hkx : k = x
        · subst hkx
          simp [setDeleg, hk, lookupDeleg]
        · simp [setDeleg, hk, lookupDeleg, hkx, ih]

theorem mem_keys_setDeleg (l : List (Addr × Delegation)) (a x : Addr) (d : Delegation) :
    x ∈ (setDeleg l a d).map Prod.fst ↔ x ∈ l.map Prod.fst ∨ x = a := by
  induction l with
  | nil => simp [setDeleg]
  | cons kv rest ih =>
      obtain ⟨k, v⟩ := kv
      by_cases hk : k = a
      · subst hk
        simp [setDeleg]
        tauto
      · simp only [setDeleg, if_neg hk, List.map_cons, List.mem_cons, ih]
        tauto

theorem keysNodup_setDeleg (l : List (Addr × Delegation)) (a : Addr) (d : Delegation)
    (h : (l.map Prod.fst).Nodup) : ((setDeleg l a d).map Prod.fst).Nodup := by
  induction l with
  | nil => simp [setDeleg]
  | cons kv rest ih =>
      obtain ⟨k, v⟩ := kv
      simp only [List.map_cons, List.nodup_cons] at h
      by_cases hk : k = a
      · subst hk
        simp only [setDeleg, List.map_cons, List.nodup_cons]
        simpa using h
      · simp only [setDeleg, if_neg hk, List.map_cons, List.nodup_cons]
        refine ⟨fun hmem => ?_, ih h.2⟩
        rcases (mem_keys_setDeleg rest a k d).mp hmem with hr | he
        · exact h.1 hr
        · exact hk he

/-- Reading an absent record returns `none` and leaves the store unchanged. -/
theorem get_delegation_none (s : Store) (now a : Nat)
    (h : lookupDeleg s.delegs a = none) : get_delegation s now a = (none, s) := by
  simp [get_delegation, h]

/-- Reading an effectively-active record returns it and leaves the store
unchanged. -/
theorem get_delegation_active (s : Store) (now a : Nat) (d : Delegation)
    (h : lookupDeleg s.delegs a = some d) (hact : isActiveAt d now = true) :
    get_delegation s now a = (some d, s) := by
  simp only [isActiveAt, isExpiredAt, Bool.and_eq_true, decide_eq_true_eq,
    Bool.not_eq_true', decide_eq_false_iff_not] at hact
  simp [get_delegation, h, hact.1, hact.2]

/-- Inversion for a successful committing step of `delegate_voting_power`:
the cycle and depth probes passed and the result is the input store with the
fresh record written and a `Created` history entry appended. -/
theorem delegateCommit_ok_inv (s : Store) (now delegator del expiry : Nat) (s₂ : Store)
    (h : delegate_voting_power.delegateCommit s now delegator del expiry = Except.ok s₂) :
    s₂ = { s with
           delegs := setDeleg s.delegs delegator (newDelegation delegator del expiry now),
           hist := s.hist ++ [(delegator, createdEntry del now)] } := by
  unfold delegate_voting_power.delegateCommit at h
  split at h
  · exact Except.noConfusion h
  · split at h
    · exact Except.noConfusion h
    · injection h with h
      exact h.symm

/-- Inversion for a successful `delegate_voting_power`: the preconditions all
held and the result is the input store with the fresh record written and a
`Created` history entry appended. -/
theorem delegate_ok_inv (s : Store) (now delegator del expiry : Nat) (s₂ : Store)
    (h : delegate_voting_power s now delegator del expiry = Except.ok s₂) :
    delegator ∈ s.signers ∧ delegator ≠ del ∧
      s₂ = { s with
             delegs := setDeleg s.delegs delegator (newDelegation delegator del expiry now),
             hist := s.hist ++ [(delegator, createdEntry del now)] } := by
  unfold delegate_voting_power at h
  by_cases h1 : delegator ∈ s.signers
  · rw [if_neg (not_not_intro h1)] at h
    by_cases h2 : delegator = del
    · rw [if_pos h2] at h
      exact Except.noConfusion h
    · rw [if_neg h2] at h
      refine ⟨h1, h2, ?_⟩
      split at h
      · split at h
        · exact Except.noConfusion h
        · exact delegateCommit_ok_inv _ _ _ _ _ _ h
      · exact delegateCommit_ok_inv _ _ _ _ _ _ h
  · rw [if_pos h1] at h
    exact Except.noConfusion h

/-- Inversion for a successful `revoke_delegation`: an effectively-active
record existed and is rewritten with status `Revoked`, with a `Revoked`
history entry appended. -/
theorem revoke_ok_inv (s : Store) (now delegator : Nat) (s₂ : Store)
    (h : revoke_delegation s now delegator = Except.ok s₂) :
    ∃ d, lookupDeleg s.delegs delegator = some d ∧ isActiveAt d now = true ∧
      s₂ = { s with
             delegs := setDeleg s.delegs delegator { d with status := DelegationStatus.Revoked },
             hist := s.hist ++
               [(delegator,
                 { event := HistoryEvent.Revoked, delegate := d.delegate, at_ledger := now })] } := by
  unfold revoke_delegation at h
  split at h
  · exact Except.noConfusion h
  · rename_i d hl
    split at h
    · rename_i hact
      injection h with h
      exact ⟨d, hl, hact, h.symm⟩
    · exact Except.noConfusion h

/-- Reading an address with no effectively-active outgoing delegation — no
record at all, or a `Revoked`, `Expired` or stale-`Active` one — reports the
delegation absent (whether or not the lazy-expiry write fires). -/
theorem get_delegation_fst_none (s : Store) (now a : Nat)
    (h : ∀ d, lookupDeleg s.delegs a = some d → isActiveAt d now = false) :
    (get_delegation s now a).1 = none := by
  rcases hl : lookupDeleg s.delegs a with _ | d
  · rw [get_delegation_none s now a hl]
  · have hin := h d hl
    by_cases hst : d.status = DelegationStatus.Active
    · by_cases hex : d.expiry_ledger ≠ 0 ∧ d.expiry_ledger ≤ now
      · simp [get_delegation, hl, hst, hex]
      · have hact : isActiveAt d now = true := by
          simp [isActiveAt, isExpiredAt, hst, hex]
        rw [hact] at hin
        exact Bool.noConfusion hin
    · simp [get_delegation, hl, hst]

/-- The committing part of `delegate_voting_power` never reports
`AlreadyExists`. -/
theorem delegateCommit_ne_alreadyExists (s : Store) (now delegator del expiry : Nat) :
    delegate_voting_power.delegateCommit s now delegator del expiry ≠
      Except.error DelegationError.AlreadyExists := by
  unfold delegate_voting_power.delegateCommit
  split
  · simp
  · split <;> simp

end VaultDAO

open VaultDAO Frontend

/-- C1: `get_effective_voter` is a total function (a Lean function on the
embedded store, defined for every input), and for every address `a` with no
delegation record in the Store it returns `a` itself. -/
theorem get_effective_voter_no_record_self (s : Store) (now a : Nat)
    (h : lookupDeleg s.delegs a = none) :
    (get_effective_voter s now a).1 = a := by
  simp [get_effective_voter, resolveWalk, get_delegation_none s now a h]

theorem get_effective_voter_no_record_self_witness :
    (get_effective_voter ⟨[], [], []⟩ 0 5).1 = 5 :=
  get_effective_voter_no_record_self ⟨[], [], []⟩ 0 5 rfl

/-- C2: for every chain of two active, non-expired delegations `a → b → c`
stored in the Store (the three addresses distinct, `c` terminal in the spec's
sense: no effectively-active outgoing delegation, whether `c` has no record
or a `Revoked`, `Expired` or stale one), `get_effective_voter a` returns the
terminal address `c`. -/
theorem get_effective_voter_two_hop_chain (s : Store) (now a b c : Nat)
    (d₁ d₂ : Delegation)
    (ha : lookupDeleg s.delegs a = some d₁) (hd₁ : d₁.delegate = b)
    (hact₁ : isActiveAt d₁ now = true)
    (hb : lookupDeleg s.delegs b = some d₂) (hd₂ : d₂.delegate = c)
    (hact₂ : isActiveAt d₂ now = true)
    (hc : ∀ d₃, lookupDeleg s.delegs c = some d₃ → isActiveAt d₃ now = false)
    (hba : b ≠ a) (hca : c ≠ a) (hcb : c ≠ b) :
    (get_effective_voter s now a).1 = c := by
  have ra := get_delegation_active s now a d₁ ha hact₁
  have rb := get_delegation_active s now b d₂ hb hact₂
  have rc := get_delegation_fst_none s now c hc
  rcases hgd : get_delegation s now c with ⟨r, s₃⟩
  rw [hgd] at rc
  simp only at rc
  subst rc
  simp [get_effective_voter, resolveWalk, MAX_CHAIN_DEPTH, ra, rb, hgd, hd₁, hd₂,
    hba, hca, hcb]

theorem get_effective_voter_two_hop_chain_witness :
    (get_effective_voter
      ⟨[], [(0, ⟨0, 1, 0, DelegationStatus.Active, 0⟩),
            (1, ⟨1, 2, 0, DelegationStatus.Active, 0⟩),
            (2, ⟨2, 0, 0, DelegationStatus.Revoked, 0⟩)], []⟩ 0 0).1 = 2 :=
  get_effective_voter_two_hop_chain _ 0 0 1 2 _ _ rfl rfl rfl rfl rfl rfl
    (fun d₃ hd₃ => Option.some.inj hd₃ ▸ rfl) (by decide) (by decide) (by decide)

/-- C7: `delegate_voting_power(a, a, _)` always fails with `Unauthorized`
(either the signer check or the self-delegation check fires, both with the
same error), for every store, ledger and expiry; the error return commits no
store change. -/
theorem delegate_self_always_unauthorized (s : Store) (now a expiry : Nat) :
    delegate_voting_power s now a a expiry =
      Except.error DelegationError.Unauthorized := by
  unfold delegate_voting_power
  split
  · rfl
  · rw [if_pos rfl]

/-- C8: `getEventTypeFromTopic` is total and, for every decoder outcome, it
returns the decoded symbol exactly when the decode yields a string belonging
to `EVENT_SYMBOLS`; a decode failure (thrown and caught), a non-string value,
or an unknown symbol all yield `unknown`. -/
theorem getEventTypeFromTopic_total_spec (decode : String → ScDecode) (t : String) :
    (decode t = ScDecode.fail → getEventTypeFromTopic decode t = "unknown") ∧
    (decode t = ScDecode.other → getEventTypeFromTopic decode t = "unknown") ∧
    (∀ s, decode t = ScDecode.str s → s ∉ EVENT_SYMBOLS →
      getEventTypeFromTopic decode t = "unknown") ∧
    (∀ s, decode t = ScDecode.str s → s ∈ EVENT_SYMBOLS →
      getEventTypeFromTopic decode t = s) := by
  refine ⟨fun h => ?_, fun h => ?_, fun s hs hmem => ?_, fun s hs hmem => ?_⟩ <;>
    simp [getEventTypeFromTopic, *]

theorem getEventTypeFromTopic_total_spec_witness :
    getEventTypeFromTopic (fun _ => ScDecode.str "signer_added") "topic" = "signer_added" :=
  (getEventTypeFromTopic_total_spec (fun _ => ScDecode.str "signer_added") "topic").2.2.2
    "signer_added" rfl (by decide)

/-- C9: `proposeTransfer` and `rejectProposal` both throw
`Wallet not connected` whenever the wallet is disconnected or no address is
set, performing no effect at all — in particular neither `setLoading(true)`
nor any account lookup, transaction build, signing or submission (the effect
trace is empty). -/
theorem wallet_guard_before_effects (env : RpcEnv) (isConnected : Bool)
    (address : Option String) (recipient token amount memo : String) (pid : Nat)
    (h : isConnected = false ∨ address = none) :
    proposeTransfer env isConnected address recipient token amount memo =
      ([], Except.error "Wallet not connected") ∧
    rejectProposal env isConnected address pid =
      ([], Except.error "Wallet not connected") := by
  rcases h with h | h
  · subst h
    exact ⟨rfl, rfl⟩
  · subst h
    cases isConnected <;> exact ⟨rfl, rfl⟩

theorem wallet_guard_before_effects_witness :
    proposeTransfer ⟨fun _ => Except.ok (), none, "PENDING", "hash", id⟩
        false (some "GADDR") "r" "t" "1" "m" =
      ([], Except.error "Wallet not connected") ∧
    rejectProposal ⟨fun _ => Except.ok (), none, "PENDING", "hash", id⟩
        false (some "GADDR") 3 =
      ([], Except.error "Wallet not connected") :=
  wallet_guard_before_effects _ false (some "GADDR") "r" "t" "1" "m" 3 (Or.inl rfl)

/-- C10: `canRejectProposal` returns `true` for every proposal when the wallet
is not connected or no address is set; with a connected wallet and address it
returns `true` exactly when the proposal's proposer equals the connected
address or the user role is `Admin`. -/
theorem canRejectProposal_spec (isConnected : Bool) (address : Option String)
    (role : String) (p : Frontend.Proposal) :
    ((isConnected = false ∨ address = none) →
      canRejectProposal isConnected address role p = true) ∧
    (∀ addr, isConnected = true → address = some addr →
      (canRejectProposal isConnected address role p = true ↔
        p.proposer = addr ∨ role = "Admin")) := by
  constructor
  · rintro (h | h) <;> subst h
    · cases address <;> rfl
    · cases isConnected <;> rfl
  · intro addr hc hadr
    subst hc
    subst hadr
    simp [canRejectProposal]

theorem canRejectProposal_spec_witness :
    canRejectProposal true (some "GA") "Treasurer" ⟨"GA"⟩ = true :=
  ((canRejectProposal_spec true (some "GA") "Treasurer" ⟨"GA"⟩).2 "GA" rfl rfl).mpr
    (Or.inl rfl)

/-- C5: each delegator keys at most one record, and every operation preserves
this; a `delegate_voting_power` for a delegator holding an effectively-active
delegation fails with `AlreadyExists` (under the earlier checks: the delegator
is a signer and not self-delegating) instead of overwriting; and after a
successful `revoke_delegation` a new delegation for the same delegator can no
longer fail with `AlreadyExists`. -/
theorem delegation_unique_per_delegator (s : Store) (now a b expiry : Nat) :
    (∀ s₂, delegate_voting_power s now a b expiry = Except.ok s₂ →
      keysNodup s → keysNodup s₂) ∧
    (∀ s₂, revoke_delegation s now a = Except.ok s₂ → keysNodup s → keysNodup s₂) ∧
    (a ∈ s.signers → a ≠ b →
      ∀ d, lookupDeleg s.delegs a = some d → isActiveAt d now = true →
        delegate_voting_power s now a b expiry =
          Except.error DelegationError.AlreadyExists) ∧
    (∀ s₂, revoke_delegation s now a = Except.ok s₂ →
      ∀ e₂, delegate_voting_power s₂ now a b e₂ ≠
        Except.error DelegationError.AlreadyExists) := by
  refine ⟨?_, ?_, ?_, ?_⟩
  · intro s₂ h hn
    obtain ⟨-, -, rfl⟩ := delegate_ok_inv s now a b expiry s₂ h
    exact keysNodup_setDeleg s.delegs a _ hn
  · intro s₂ h hn
    obtain ⟨d, -, -, rfl⟩ := revoke_ok_inv s now a s₂ h
    exact keysNodup_setDeleg s.delegs a _ hn
  · intro h1 h2 d hd hact
    simp [delegate_voting_power, h1, h2, hd, hact]
  · intro s₂ h e₂ hcontra
    obtain ⟨d, hl, hact, rfl⟩ := revoke_ok_inv s now a s₂ h
    have hlk :
        lookupDeleg (setDeleg s.delegs a { d with status := DelegationStatus.Revoked }) a =
          some { d with status := DelegationStatus.Revoked } :=
      lookupDeleg_setDeleg_self s.delegs a _
    unfold delegate_voting_power at hcontra
    split at hcontra
    · injection hcontra with hcontra
      exact DelegationError.noConfusion hcontra
    · split at hcontra
      · injection hcontra with hcontra
        exact DelegationError.noConfusion hcontra
      · split at hcontra
        · rename_i old hold
          rw [hlk] at hold
          injection hold with hold
          split at hcontra
          · rename_i hact2
            rw [← hold] at hact2
            simp [isActiveAt] at hact2
          · exact delegateCommit_ne_alreadyExists _ _ _ _ _ hcontra
        · exact delegateCommit_ne_alreadyExists _ _ _ _ _ hcontra

theorem delegation_unique_per_delegator_witness :
    delegate_voting_power
        ⟨[0, 1, 2], [(0, ⟨0, 1, 0, DelegationStatus.Active, 0⟩)], []⟩ 0 0 2 0 =
      Except.error DelegationError.AlreadyExists :=
  (delegation_unique_per_delegator
      ⟨[0, 1, 2], [(0, ⟨0, 1, 0, DelegationStatus.Active, 0⟩)], []⟩ 0 0 2 0).2.2.1
    (by decide) (by decide) _ rfl rfl

/-- C6: expiry is detected lazily on read — after a successful
`delegate_voting_power a b L` with `L` a nonzero ledger height not in the
future, the very next `get_delegation a` reports the delegation absent,
rewrites the stored record's status to `Expired`, and appends a
`delegation_expired` history entry for `a`. -/
theorem lazy_expiry_on_first_read (s : Store) (now a b L : Nat) (s₂ : Store)
    (hok : delegate_voting_power s now a b L = Except.ok s₂)
    (hL0 : L ≠ 0) (hLpast : L ≤ now) :
    (get_delegation s₂ now a).1 = none ∧
    (∃ d, lookupDeleg ((get_delegation s₂ now a).2).delegs a = some d ∧
      d.status = DelegationStatus.Expired) ∧
    (∃ e, (a, e) ∈ ((get_delegation s₂ now a).2).hist ∧
      e.event = HistoryEvent.Expired) := by
  obtain ⟨-, -, rfl⟩ := delegate_ok_inv s now a b L s₂ hok
  have hread :
      get_delegation
          { s with
            delegs := setDeleg s.delegs a (newDelegation a b L now),
            hist := s.hist ++ [(a, createdEntry b now)] } now a =
        (none,
          { s with
            delegs := setDeleg (setDeleg s.delegs a (newDelegation a b L now)) a
              { newDelegation a b L now with status := DelegationStatus.Expired },
            hist := (s.hist ++ [(a, createdEntry b now)]) ++
              [(a, expiredEntry (newDelegation a b L now) now)] }) := by
    simp [get_delegation, newDelegation, expiredEntry, lookupDeleg_setDeleg_self,
      hL0, hLpast]
  rw [hread]
  refine ⟨rfl, ⟨_, lookupDeleg_setDeleg_self _ a _, rfl⟩,
    ⟨expiredEntry (newDelegation a b L now) now, ?_, rfl⟩⟩
  simp

theorem lazy_expiry_on_first_read_witness :
    (get_delegation ⟨[0, 1], [(0, ⟨0, 1, 5, DelegationStatus.Active, 10⟩)],
        [(0, ⟨HistoryEvent.Created, 1, 10⟩)]⟩ 10 0).1 = none ∧
    (∃ d, lookupDeleg ((get_delegation ⟨[0, 1],
        [(0, ⟨0, 1, 5, DelegationStatus.Active, 10⟩)],
        [(0, ⟨HistoryEvent.Created, 1, 10⟩)]⟩ 10 0).2).delegs 0 = some d ∧
      d.status = DelegationStatus.Expired) ∧
    (∃ e, (0, e) ∈ ((get_delegation ⟨[0, 1],
        [(0, ⟨0, 1, 5, DelegationStatus.Active, 10⟩)],
        [(0, ⟨HistoryEvent.Created, 1, 10⟩)]⟩ 10 0).2).hist ∧
      e.event = HistoryEvent.Expired) :=
  lazy_expiry_on_first_read ⟨[0, 1], [], []⟩ 10 0 1 5 _ rfl (by decide) (by decide)

/-- C3 counterexample: the claim quantifies over arbitrary distinct addresses,
but `delegate_voting_power` checks the signer register first — from the empty
store (no delegations, no signers) the first call `delegate_voting_power(0, 1, 0)`
fails with `Unauthorized` instead of succeeding. -/
theorem delegate_nonsigner_first_call_cex :
    (0 : Nat) ≠ 1 ∧
    VaultDAO.Store.delegs ⟨[], [], []⟩ = [] ∧
    delegate_voting_power ⟨[], [], []⟩ 0 0 1 0 =
      Except.error DelegationError.Unauthorized :=
  ⟨by decide, rfl, rfl⟩

/-- C3 (amended): for any two distinct signer addresses `a` and `b`, starting
from a state with no delegations, `delegate_voting_power(a, b, 0)` succeeds
and an immediately following `delegate_voting_power(b, a, 0)` fails with
`CircularDelegation` (the error aborts the invocation, so the second call
commits nothing). -/
theorem delegate_circular_second_call (sig : List Addr)
    (hist : List (Addr × DelegationHistoryEntry)) (now a b : Nat)
    (ha : a ∈ sig) (hb : b ∈ sig) (hab : a ≠ b) :
    ∃ s₁,
      delegate_voting_power ⟨sig, [], hist⟩ now a b 0 = Except.ok s₁ ∧
      delegate_voting_power s₁ now b a 0 =
        Except.error DelegationError.CircularDelegation := by
  refine ⟨⟨sig, [(a, newDelegation a b 0 now)], hist ++ [(a, createdEntry b now)]⟩, ?_, ?_⟩
  · simp [delegate_voting_power, delegate_voting_power.delegateCommit, lookupDeleg,
      setDeleg, reachesWithin, chainLen, MAX_CHAIN_DEPTH, ha, hab]
  · simp [delegate_voting_power, delegate_voting_power.delegateCommit, lookupDeleg,
      setDeleg, reachesWithin, chainLen, MAX_CHAIN_DEPTH, isActiveAt, isExpiredAt,
      newDelegation, hb, hab, Ne.symm hab]

theorem delegate_circular_second_call_witness :
    ∃ s₁,
      delegate_voting_power ⟨[5, 7], [], []⟩ 3 5 7 0 = Except.ok s₁ ∧
      delegate_voting_power s₁ 3 7 5 0 =
        Except.error DelegationError.CircularDelegation :=
  delegate_circular_second_call [5, 7] [] 3 5 7 (by decide) (by decide) (by decide)

/-- C4 counterexample: building the chain `0→1→2→3→4` tail-first (each new
delegator appends at the tail), every call succeeds — including the fourth,
which creates the 4th hop — and the committed chain starting at `0` has 4
hops, contradicting both halves of the claim.  (The resolver still cuts its
walk off after `MAX_CHAIN_DEPTH` hops, but the stored chain exceeds it.) -/
theorem delegate_forward_chain_depth4_cex :
    ((delegate_voting_power ⟨[0, 1, 2, 3, 4], [], []⟩ 10 0 1 0).bind fun s₁ =>
      (delegate_voting_power s₁ 10 1 2 0).bind fun s₂ =>
        (delegate_voting_power s₂ 10 2 3 0).bind fun s₃ =>
          (delegate_voting_power s₃ 10 3 4 0).map fun s₄ =>
            chainLen s₄ 10 4 0) = Except.ok 4 := rfl

/-- C4 (amended): when the chain `a→b→c→d→e` is built head-first (each new
edge's delegate is the head of the already-committed chain: `d→e`, `c→d`,
`b→c`, `a→b`), the first three calls succeed and the final call — the one that
would create the 4th hop — fails with `DelegationChainTooLong`; chains built
tail-first can commit more than 3 stored hops, with the resolver cutting its
walk off at `MAX_CHAIN_DEPTH` instead. -/
theorem delegate_fourth_hop_head_first (sig : List Addr)
    (hist : List (Addr × DelegationHistoryEntry)) (now a b c d e : Nat)
    (hnd : [a, b, c, d, e].Nodup)
    (ha : a ∈ sig) (hb : b ∈ sig) (hc : c ∈ sig) (hd : d ∈ sig) :
    ∃ s₁ s₂ s₃,
      delegate_voting_power ⟨sig, [], hist⟩ now d e 0 = Except.ok s₁ ∧
      delegate_voting_power s₁ now c d 0 = Except.ok s₂ ∧
      delegate_voting_power s₂ now b c 0 = Except.ok s₃ ∧
      delegate_voting_power s₃ now a b 0 =
        Except.error DelegationError.DelegationChainTooLong := by
  simp only [List.nodup_cons, List.mem_cons, List.mem_singleton, List.not_mem_nil,
    not_or, List.nodup_nil, and_true, not_false_eq_true] at hnd
  obtain ⟨⟨hab, hac, had, hae⟩, ⟨hbc, hbd, hbe⟩, ⟨hcd, hce⟩, hde⟩ := hnd
  refine ⟨⟨sig, [(d, newDelegation d e 0 now)], hist ++ [(d, createdEntry e now)]⟩,
    ⟨sig, [(d, newDelegation d e 0 now), (c, newDelegation c d 0 now)],
      (hist ++ [(d, createdEntry e now)]) ++ [(c, createdEntry d now)]⟩,
    ⟨sig, [(d, newDelegation d e 0 now), (c, newDelegation c d 0 now),
           (b, newDelegation b c 0 now)],
      ((hist ++ [(d, createdEntry e now)]) ++ [(c, createdEntry d now)]) ++
        [(b, createdEntry c now)]⟩, ?_, ?_, ?_, ?_⟩
  · simp [delegate_voting_power, delegate_voting_power.delegateCommit, lookupDeleg,
      setDeleg, reachesWithin, chainLen, MAX_CHAIN_DEPTH, isActiveAt, isExpiredAt,
      newDelegation, ha, hb, hc, hd, hab, hac, had, hae, hbc, hbd, hbe, hcd, hce, hde,
      Ne.symm hab, Ne.symm hac, Ne.symm had, Ne.symm hae, Ne.symm hbc,
      Ne.symm hbd, Ne.symm hbe, Ne.symm hcd, Ne.symm hce, Ne.symm hde]
  · simp [delegate_voting_power, delegate_voting_power.delegateCommit, lookupDeleg,
      setDeleg, reachesWithin, chainLen, MAX_CHAIN_DEPTH, isActiveAt, isExpiredAt,
      newDelegation, ha, hb, hc, hd, hab, hac, had, hae, hbc, hbd, hbe, hcd, hce, hde,
      Ne.symm hab, Ne.symm hac, Ne.symm had, Ne.symm hae, Ne.symm hbc,
      Ne.symm hbd, Ne.symm hbe, Ne.symm hcd, Ne.symm hce, Ne.symm hde]
  · simp [delegate_voting_power, delegate_voting_power.delegateCommit, lookupDeleg,
      setDeleg, reachesWithin, chainLen, MAX_CHAIN_DEPTH, isActiveAt, isExpiredAt,
      newDelegation, ha, hb, hc, hd, hab, hac, had, hae, hbc, hbd, hbe, hcd, hce, hde,
      Ne.symm hab, Ne.symm hac, Ne.symm had, Ne.symm hae, Ne.symm hbc,
      Ne.symm hbd, Ne.symm hbe, Ne.symm hcd, Ne.symm hce, Ne.symm hde]
  · simp [delegate_voting_power, delegate_voting_power.delegateCommit, lookupDeleg,
      setDeleg, reachesWithin, chainLen, MAX_CHAIN_DEPTH, isActiveAt, isExpiredAt,
      newDelegation, ha, hb, hc, hd, hab, hac, had, hae, hbc, hbd, hbe, hcd, hce, hde,
      Ne.symm hab, Ne.symm hac, Ne.symm had, Ne.symm hae, Ne.symm hbc,
      Ne.symm hbd, Ne.symm hbe, Ne.symm hcd, Ne.symm hce, Ne.symm hde]

theorem delegate_fourth_hop_head_first_witness :
    ∃ s₁ s₂ s₃,
      delegate_voting_power ⟨[0, 1, 2, 3, 4], [], []⟩ 10 3 4 0 = Except.ok s₁ ∧
      delegate_voting_power s₁ 10 2 3 0 = Except.ok s₂ ∧
      delegate_voting_power s₂ 10 1 2 0 = Except.ok s₃ ∧
      delegate_voting_power s₃ 10 0 1 0 =
        Except.error DelegationError.DelegationChainTooLong :=
  delegate_fourth_hop_head_first [0, 1, 2, 3, 4] [] 10 0 1 2 3 4 (by decide)
    (by decide) (by decide) (by decide) (by decide)
